import Mathlib

/-!
# Verification of the magic-folder snapshot synchronization engine

A shallow embedding of the magic-folder repository's snapshot
synchronization core, and proofs of the specification claims about it.

The in-memory fake Tahoe grid is embedded from
`src/magic_folder/testing/web.py` (`_FakeTahoeUriHandler`).  The snapshot
store, local/remote snapshot creators, downloader/updater, uploader
service and configuration store are not shipped in this source tree (only
their tests and callers are), so they are modelled from the spec, as
marked on each definition.
-/

namespace MagicFolder

/-! ## Capabilities

The fake grid (`testing/web.py`, `capability_generator`) deterministically
generates capability strings of the form
`<kind><base32(key_n)>:<base32(ueb_n)>:1:1:<n*1000>`, where `key_n` and
`ueb_n` are the `n`-th digests of two SHA-256 hash chains.  The digest
fields are injective functions of the counter `n`, so byte-equality of two
generated capability strings of the same kind coincides with equality of
their counters, and strings of distinct kinds are never equal (the kind is
the string's prefix and the remaining fields share a common shape).  We
therefore represent a generated capability by its kind prefix together
with its counter value; equality of `Capability` values models
byte-equality of the underlying strings. -/

structure Capability where
  kind : String
  index : Nat
deriving DecidableEq, Repr

/-- The capability kinds the engine uses on the fake grid: immutable
files (`PUT format=chk`), immutable directories (`POST t=mkdir-immutable`)
and mutable directories (`POST t=mkdir`), from `testing/web.py`. -/
def chkKind : String := "URI:CHK:"

def dirChkKind : String := "URI:DIR2-CHK:"

def dir2Kind : String := "URI:DIR2:"

def knownKinds : List String := [chkKind, dirChkKind, dir2Kind]

/-- `is_uri`-style validity (the `test_commit_a_file` assertion checks the
stored remote capability with `allmydata.uri.is_uri`): a capability the
fake grid can have produced, i.e. one of its known kinds. -/
def validCap (c : Capability) : Prop := c.kind ∈ knownKinds

instance (c : Capability) : Decidable (validCap c) := by
  unfold validCap; infer_instance

/-! ## Grid objects

The fake grid stores the raw request body against each capability.  The
engine stores three distinct serialized shapes there: raw content blobs,
JSON-serialized signed snapshot metadata, and immutable-directory bodies.
We model the stored value as a sum of these shapes; equality of
`GridObject` values models byte-equality of the serialized bodies (the
serializations are injective and their formats disjoint). -/

inductive GridObject where
  /-- A raw content blob (bytes as a list of byte values). -/
  | blob (data : List Nat)
  /-- The serialized signed snapshot metadata: name, author, and the
  ordered list of parent snapshot capabilities. -/
  | metablob (name : String) (author : String) (parents : List Capability)
  /-- An immutable-directory body: an ordered map from child name to
  child capability. -/
  | dir (entries : List (String × Capability))
deriving DecidableEq, Repr

/-! ## Association lists

The fake grid's `data` is a Python `dict` (insertion-ordered); the store's
tables are keyed rows.  Both are modelled as insertion-ordered association
lists. -/

/-- First value bound to `k`, scanning in insertion order. -/
def assocFind {α β : Type} [DecidableEq α] (xs : List (α × β)) (k : α) : Option β :=
  match xs with
  | [] => none
  | (k', v) :: rest => if k' = k then some v else assocFind rest k

/-- Bind `k` to `v`, replacing an existing binding in place (Python
`dict` update / SQL `UPDATE`), else appending. -/
def assocSet {α β : Type} [DecidableEq α] (xs : List (α × β)) (k : α) (v : β) : List (α × β) :=
  match xs with
  | [] => [(k, v)]
  | (k', v') :: rest => if k' = k then (k, v) :: rest else (k', v') :: assocSet rest k v

/-- Remove any binding of `k`. -/
def assocRemove {α β : Type} [DecidableEq α] (xs : List (α × β)) (k : α) : List (α × β) :=
  match xs with
  | [] => []
  | (k', v') :: rest => if k' = k then assocRemove rest k else (k', v') :: assocRemove rest k

/-! ## The fake Tahoe grid

Embedded from `_FakeTahoeUriHandler` in `src/magic_folder/testing/web.py`:
`data` is the capability → body map, `capability_generators` keeps one
counter per kind (the generator yields its first capability at counter
value 1). -/

structure Grid where
  data : List (Capability × GridObject)
  counters : List (String × Nat)
deriving DecidableEq, Repr

def emptyGrid : Grid := ⟨[], []⟩

/-- Current counter value of a kind's generator (0 when the generator has
not been created yet). -/
def Grid.counter (g : Grid) (kind : String) : Nat :=
  (assocFind g.counters kind).getD 0

/-- `_generate_capability`: advance the kind's generator and return the
next capability. -/
def Grid.generateCapability (g : Grid) (kind : String) : Grid × Capability :=
  let n := g.counter kind + 1
  (⟨g.data, assocSet g.counters kind n⟩, ⟨kind, n⟩)

/-- The first capability whose stored body equals `obj`, in insertion
order (`for k in self.data: if self.data[k] == data: return (False, k)`). -/
def lookupByValue (xs : List (Capability × GridObject)) (obj : GridObject) : Option Capability :=
  match xs with
  | [] => none
  | (k, v) :: rest => if v = obj then some k else lookupByValue rest obj

/-- `_add_new_data`: generate a fresh capability and store the body under
it; the code raises `Exception("Internal error; key already exists
somehow")` if the generated capability is already a key. -/
def Grid.addNewData (g : Grid) (kind : String) (obj : GridObject) :
    Except String (Grid × Capability) :=
  let (g1, cap) := g.generateCapability kind
  if (assocFind g1.data cap).isSome then
    .error "Internal error; key already exists somehow"
  else
    .ok (⟨g1.data ++ [(cap, obj)], g1.counters⟩, cap)

/-- `add_data`: add immutable data; if a stored body already equals it,
return the existing capability with `fresh = False`, else store it under a
brand-new capability and return `fresh = True`. -/
def Grid.add_data (g : Grid) (kind : String) (obj : GridObject) :
    Except String (Grid × (Bool × Capability)) :=
  match lookupByValue g.data obj with
  | some k => .ok (g, (false, k))
  | none =>
    match g.addNewData kind obj with
    | .error e => .error e
    | .ok (g', cap) => .ok (g', (true, cap))

/-! ## Local snapshots and the snapshot store

Modelled from the spec: the `snapshot.py` / `config.py` modules holding
`LocalSnapshot`, `create_snapshot` and `MagicFolderConfig`'s snapshot
tables are not in this source tree (only their tests are). -/

/-- Modelled from the spec: a local snapshot (§3 data model): relative
path, author, stashed content bytes, a list of parent local snapshots
(other unuploaded snapshots) and a list of parent remote capabilities
(ancestors already uploaded). -/
inductive LocalSnapshot where
  | mk (name : String) (author : String) (content : List Nat)
      (parentsLocal : List LocalSnapshot) (parentsRemote : List Capability)

def LocalSnapshot.name : LocalSnapshot → String
  | .mk n _ _ _ _ => n

def LocalSnapshot.author : LocalSnapshot → String
  | .mk _ a _ _ _ => a

def LocalSnapshot.content : LocalSnapshot → List Nat
  | .mk _ _ c _ _ => c

def LocalSnapshot.parentsLocal : LocalSnapshot → List LocalSnapshot
  | .mk _ _ _ ps _ => ps

def LocalSnapshot.parentsRemote : LocalSnapshot → List Capability
  | .mk _ _ _ _ pr => pr

/-- Length of the chain of local parents followed from the head (each
`store_local` makes the previous head the sole local parent, so the chain
follows the first local parent). -/
def LocalSnapshot.chainLen : LocalSnapshot → Nat
  | .mk _ _ _ [] _ => 0
  | .mk _ _ _ (p :: _) _ => p.chainLen + 1

/-- The remote-capability parents of the deepest local ancestor along the
first-local-parent chain. -/
def LocalSnapshot.deepestRemotes : LocalSnapshot → List Capability
  | .mk _ _ _ [] pr => pr
  | .mk _ _ _ (p :: _) _ => p.deepestRemotes

/-- Modelled from the spec: the per-folder snapshot store (§4.2): head
local snapshot per path, latest remote capability per path, and recorded
conflicts `(path, participant, capability)`. -/
structure SnapshotStore where
  locals : List (String × LocalSnapshot)
  remotes : List (String × Capability)
  conflicts : List (String × String × Capability)

def emptyStore : SnapshotStore := ⟨[], [], []⟩

/-- Modelled from the spec: the *not-found* error `get_local`/`get_remote`
fail with (`SnapshotNotFound` in the tests). -/
def snapshotNotFound : String := "SnapshotNotFound"

/-- Modelled from the spec: `get_local(path)` for the folder's author —
returns the head local snapshot chain, or fails with *not-found*; the
concrete API `get_local_snapshot(name, author)` also checks the author. -/
def SnapshotStore.get_local_snapshot (st : SnapshotStore) (path : String) (author : String) :
    Except String LocalSnapshot :=
  match assocFind st.locals path with
  | some s => if s.author = author then .ok s else .error snapshotNotFound
  | none => .error snapshotNotFound

/-- Modelled from the spec: `get_remote(path)` — the last stored remote
capability, or *not-found*. -/
def SnapshotStore.get_remotesnapshot (st : SnapshotStore) (path : String) :
    Except String Capability :=
  match assocFind st.remotes path with
  | some c => .ok c
  | none => .error snapshotNotFound

/-- Modelled from the spec: `all_local_paths()` — the paths with pending
local snapshots (at most one head per path, so the key list). -/
def SnapshotStore.all_local_paths (st : SnapshotStore) : List String :=
  st.locals.map Prod.fst

/-- Modelled from the spec: `store_local(snapshot)` — inserts/replaces
the head local snapshot for its path. -/
def SnapshotStore.store_local_snapshot (st : SnapshotStore) (s : LocalSnapshot) :
    SnapshotStore :=
  { st with locals := assocSet st.locals s.name s }

/-- Modelled from the spec: the local snapshot creator (§4.4) followed by
`store_local`: the new snapshot's parents are taken automatically as the
current head local snapshot, or — if none — a single-element list
containing the current remote snapshot, if any. -/
def SnapshotStore.create_and_store (st : SnapshotStore) (name author : String)
    (content : List Nat) : SnapshotStore :=
  match assocFind st.locals name with
  | some old =>
    st.store_local_snapshot (.mk name author content [old] [])
  | none =>
    let pr := match assocFind st.remotes name with
      | some r => [r]
      | none => []
    st.store_local_snapshot (.mk name author content [] pr)

/-- Modelled from the spec: `store_remote(path, cap)` — atomically sets
the latest-known remote snapshot capability and deletes any local-snapshot
chain with the same path as its head. -/
def SnapshotStore.store_remote (st : SnapshotStore) (path : String) (cap : Capability) :
    SnapshotStore :=
  { st with
    locals := assocRemove st.locals path
    remotes := assocSet st.remotes path cap }

/-- Modelled from the spec: record a detected conflict against the
participant's name (§4.6 step e). -/
def SnapshotStore.recordConflict (st : SnapshotStore) (path participant : String)
    (cap : Capability) : SnapshotStore :=
  { st with conflicts := st.conflicts ++ [(path, participant, cap)] }

/-! ## The grid as seen by the engine

The tests run the engine either against the fake grid
(`create_fake_tahoe_root`) or against a root answering every request with
a 500 error (`ErrorPage(500, "It's broken.", "It's broken.")` in
`test_write_snapshot_to_tahoe_fails`). -/

inductive GridServer where
  /-- The in-memory fake grid of `testing/web.py`. -/
  | fake (g : Grid)
  /-- A server answering every request with HTTP 500. -/
  | broken

/-- The error the client surfaces when a grid request fails
(`TahoeAPIError` for the 500 response). -/
def gridError : String := "TahoeAPIError: 500"

/-- `PUT /uri?format=chk` (`render_PUT`): store an immutable body,
returning its CHK capability (fresh or deduplicated). -/
def GridServer.putImmutable (gs : GridServer) (obj : GridObject) :
    Except String (GridServer × Capability) :=
  match gs with
  | .broken => .error gridError
  | .fake g =>
    match g.add_data chkKind obj with
    | .error e => .error e
    | .ok (g', (_, cap)) => .ok (.fake g', cap)

/-- `POST /uri?t=mkdir-immutable` (`render_POST`): store an immutable
directory body, returning its DIR2-CHK capability. -/
def GridServer.mkdirImmutable (gs : GridServer) (entries : List (String × Capability)) :
    Except String (GridServer × Capability) :=
  match gs with
  | .broken => .error gridError
  | .fake g =>
    match g.add_data dirChkKind (.dir entries) with
    | .error e => .error e
    | .ok (g', (_, cap)) => .ok (.fake g', cap)

/-- `GET /uri?uri=<cap>` (`render_GET`): the stored body for a
capability, or GONE (`No data for ...`) when the grid has none. -/
def GridServer.getObject (gs : GridServer) (cap : Capability) :
    Except String GridObject :=
  match gs with
  | .broken => .error gridError
  | .fake g =>
    match assocFind g.data cap with
    | some obj => .ok obj
    | none => .error "GONE: No data for capability"

/-! ## The remote snapshot creator

Modelled from the spec (§4.5): `RemoteSnapshotCreator` is not in this
source tree.  For each head local snapshot it uploads unuploaded local
parents first (deepest-first), then the stashed content as an immutable
blob, then the serialized signed metadata, then the immutable snapshot
directory `{content, metadata, parent0 … parentN}`. -/

/-- `parent0`, `parent1`, … entries of the snapshot directory. -/
def parentEntries (caps : List Capability) : List (String × Capability) :=
  caps.enum.map (fun p => ("parent" ++ toString p.1, p.2))

mutual

/-- Modelled from the spec: upload one local snapshot (§4.5 steps 1–4),
returning the snapshot directory's capability.  The snapshot's parent
capabilities are its (just-uploaded) local parents followed by its remote
parents. -/
def uploadSnapshot (gs : GridServer) : LocalSnapshot → Except String (GridServer × Capability)
  | .mk name author content psL psR =>
    match uploadParents gs psL with
    | .error e => .error e
    | .ok (gs1, localCaps) =>
      match gs1.putImmutable (.blob content) with
      | .error e => .error e
      | .ok (gs2, contentCap) =>
        match gs2.putImmutable (.metablob name author (localCaps ++ psR)) with
        | .error e => .error e
        | .ok (gs3, metadataCap) =>
          match gs3.mkdirImmutable
              ([("content", contentCap), ("metadata", metadataCap)]
                ++ parentEntries (localCaps ++ psR)) with
          | .error e => .error e
          | .ok (gs4, snapshotCap) => .ok (gs4, snapshotCap)

/-- Modelled from the spec: resolve the capabilities of a list of local
parents, uploading each (deepest-first) in order. -/
def uploadParents (gs : GridServer) : List LocalSnapshot →
    Except String (GridServer × List Capability)
  | [] => .ok (gs, [])
  | p :: rest =>
    match uploadSnapshot gs p with
    | .error e => .error e
    | .ok (gs', cap) =>
      match uploadParents gs' rest with
      | .error e => .error e
      | .ok (gs'', caps) => .ok (gs'', cap :: caps)

end

/-- Modelled from the spec: process one head local snapshot: upload it
(§4.5 steps 1–4) and on success commit atomically (`store_remote`: set
the remote pointer, delete the local chain); on failure the store is left
untouched and the snapshot is retried later. -/
def process_head (gs : GridServer) (st : SnapshotStore) (path : String) :
    GridServer × SnapshotStore :=
  match assocFind st.locals path with
  | none => (gs, st)
  | some snap =>
    match uploadSnapshot gs snap with
    | .error _ => (gs, st)
    | .ok (gs', cap) => (gs', st.store_remote path cap)

/-- Modelled from the spec: `upload_local_snapshots` — drain every
pending head local snapshot to the grid. -/
def upload_local_snapshots (gs : GridServer) (st : SnapshotStore) :
    GridServer × SnapshotStore :=
  st.all_local_paths.foldl (fun acc p => process_head acc.1 acc.2 p) (gs, st)

/-- Read back a remote snapshot's content blob: fetch the snapshot
directory, follow its `content` entry, fetch the blob. -/
def readRemoteContent (gs : GridServer) (cap : Capability) : Except String (List Nat) :=
  match gs.getObject cap with
  | .error e => .error e
  | .ok (.dir entries) =>
    match assocFind entries "content" with
    | none => .error "GONE: No data for capability"
    | some contentCap =>
      match gs.getObject contentCap with
      | .ok (.blob data) => .ok data
      | .ok _ => .error "GONE: No data for capability"
      | .error e => .error e
  | .ok _ => .error "GONE: No data for capability"

/-! ## The downloader / updater

Modelled from the spec (§4.6): the downloader module is not in this
source tree.  For each observed peer entry `(path, their-cap)` it decides
among noop / ignore / update / conflict by walking the remote ancestry,
with the tie-break that a locally pending path always produces a conflict
when a peer advances the remote, never a silent overwrite. -/

/-- The `parent*` children of a remote snapshot directory. -/
def GridServer.snapshotParents (gs : GridServer) (cap : Capability) : List Capability :=
  match gs.getObject cap with
  | .ok (.dir entries) =>
    entries.filterMap (fun e =>
      if ("parent".toList).isPrefixOf e.1.toList then some e.2 else none)
  | _ => []

/-- Modelled from the spec: bounded ancestry walk — is `a` an ancestor of
(or equal to) `b`, following `parent*` links up to `depth` steps?
Hitting the bound yields `false` (and hence a conflict outcome). -/
def isAncestor (gs : GridServer) (a : Capability) : Capability → Nat → Bool
  | _, 0 => false
  | b, d + 1 => a = b || (gs.snapshotParents b).any (fun p => isAncestor gs a p d)

/-- Modelled from the spec: the default ancestry-walk depth bound. -/
def ancestryDepthBound : Nat := 1000

/-- Modelled from the spec: is the peer's capability an ancestor of our
last-known one (we are ahead; `none` = we have no version)? -/
def theirAncestorOf (gs : GridServer) (ourR : Option Capability) (their : Capability) : Bool :=
  match ourR with
  | some ours => isAncestor gs their ours ancestryDepthBound
  | none => false

/-- Modelled from the spec: is our last-known capability an ancestor of
the peer's (a fast-forward; with no known version any incoming snapshot
is a plain download)? -/
def ourAncestorOf (gs : GridServer) (ourR : Option Capability) (their : Capability) : Bool :=
  match ourR with
  | some ours => isAncestor gs ours their ancestryDepthBound
  | none => true

/-- Modelled from the spec: one downloader decision for an observed peer
entry `(path, their)` from participant `pname` (§4.6 step 3).  `working`
is the current content of the working file.  Returns the new store, the
new working-file content, and the conflict sibling file written, if any
(`<path>.conflict-<participant-name>` with the incoming content). -/
def downloader_step (gs : GridServer) (st : SnapshotStore) (pname path : String)
    (their : Capability) (working : List Nat) :
    Except String (SnapshotStore × List Nat × Option (String × List Nat)) :=
  if assocFind st.remotes path = some their then
    -- (a) same capability: do nothing
    .ok (st, working, none)
  else if theirAncestorOf gs (assocFind st.remotes path) their = true then
    -- (d) we are ahead: do nothing
    .ok (st, working, none)
  else
    match readRemoteContent gs their with
    | .error e => .error e
    | .ok incoming =>
      if (assocFind st.locals path).isSome = true then
        -- tie-break: a locally pending path always produces a conflict
        -- when a peer advances the remote, never a silent overwrite
        .ok (st.recordConflict path pname their, working,
             some (path ++ ".conflict-" ++ pname, incoming))
      else if ourAncestorOf gs (assocFind st.remotes path) their = true then
        -- (c) fast-forward: write the working file, advance the pointer
        .ok (st.store_remote path their, incoming, none)
      else
        -- (e) divergent histories: conflict
        .ok (st.recordConflict path pname their, working,
             some (path ++ ".conflict-" ++ pname, incoming))

/-! ## The uploader service

Modelled from the spec (§4.5): `UploaderService` is not in this source
tree.  It performs one upload pass immediately on startup (to drain work
left behind by a crash) and then one pass per elapsed poll interval, on a
manually advanced clock (`twisted.internet.task.Clock` in the tests). -/

structure UploaderService where
  started : Bool
  /-- How many upload passes the remote snapshot creator has run
  (`MemorySnapshotCreator._uploaded` in the tests). -/
  uploaded : Nat
  /-- Clock units until the next scheduled poll fires. -/
  timeToNext : Nat
  pollInterval : Nat

/-- Modelled from the spec: a freshly built, unstarted service. -/
def UploaderService.new (pollInterval : Nat) : UploaderService :=
  ⟨false, 0, 0, pollInterval⟩

/-- Modelled from the spec: `startService` runs one pass immediately and
schedules the next pass one poll interval later. -/
def UploaderService.startService (s : UploaderService) : UploaderService :=
  if s.started then s
  else { s with started := true, uploaded := s.uploaded + 1, timeToNext := s.pollInterval }

/-- Modelled from the spec: one clock unit elapses; when the poll timer
fires the service runs one pass and re-schedules. -/
def UploaderService.tick (s : UploaderService) : UploaderService :=
  if s.started then
    if s.timeToNext ≤ 1 then
      { s with uploaded := s.uploaded + 1, timeToNext := s.pollInterval }
    else
      { s with timeToNext := s.timeToNext - 1 }
  else s

/-- Advance the clock by `t` units (`Clock.advance`). -/
def UploaderService.advance (s : UploaderService) : Nat → UploaderService
  | 0 => s
  | t + 1 => s.tick.advance t

/-! ## The configuration store

Modelled from the spec (§4.2 schema versioning) and `config.py`'s tests:
the global configuration database records its schema version (created at
version 1 and incremented from there); loading an unknown version raises
`ConfigurationError`.  `create_magic_folder` refuses a duplicate folder
name with `ValueError("Already have a magic-folder named '<name>'")`. -/

/-- Modelled from the spec: the per-folder configuration record. -/
structure MagicFolderCfg where
  magicPath : String
  statePath : String
  author : String
  collectiveCap : String
  personalCap : String
  pollInterval : Nat
deriving DecidableEq, Repr

/-- Modelled from the spec: the global configuration database file:
the `version` table plus the stored settings and registered folders. -/
structure GlobalConfigDB where
  version : Nat
  api_endpoint : String
  folders : List (String × MagicFolderCfg)
deriving DecidableEq, Repr

/-- Modelled from the spec: the schema version `create_global_configuration`
writes; known versions are exactly this one (versions keep incrementing
from 1, so 0 never occurs for real). -/
def currentSchemaVersion : Nat := 1

/-- Modelled from the spec: the errors the configuration layer raises. -/
inductive ConfigError where
  | configurationError (msg : String)
  | valueError (msg : String)
deriving DecidableEq, Repr

/-- Modelled from the spec: `load_global_configuration` — open the
database, check the recorded schema version, and fail with a
`ConfigurationError` on an unknown version instead of migrating. -/
def load_global_configuration (db : GlobalConfigDB) :
    Except ConfigError GlobalConfigDB :=
  if db.version = currentSchemaVersion then .ok db
  else .error (.configurationError "unknown configuration database version")

/-- Modelled from the spec: `create_magic_folder` — register a new
folder, refusing a duplicate name and leaving the database unchanged in
that case. -/
def create_magic_folder (db : GlobalConfigDB) (name : String) (cfg : MagicFolderCfg) :
    GlobalConfigDB × Except ConfigError MagicFolderCfg :=
  match assocFind db.folders name with
  | some _ =>
    (db, .error (.valueError ("Already have a magic-folder named '" ++ name ++ "'")))
  | none =>
    ({ db with folders := db.folders ++ [(name, cfg)] }, .ok cfg)

/-! ## Helper lemmas -/

theorem assocFind_assocSet_self {α β : Type} [DecidableEq α]
    (xs : List (α × β)) (k : α) (v : β) :
    assocFind (assocSet xs k v) k = some v := by
  induction xs with
  | nil => simp [assocSet, assocFind]
  | cons hd tl ih =>
    obtain ⟨k', v'⟩ := hd
    by_cases hk : k' = k
    · subst hk
      simp [assocSet, assocFind]
    · simp [assocSet, assocFind, hk, ih]

theorem assocFind_assocRemove_self {α β : Type} [DecidableEq α]
    (xs : List (α × β)) (k : α) :
    assocFind (assocRemove xs k) k = none := by
  induction xs with
  | nil => simp [assocRemove, assocFind]
  | cons hd tl ih =>
    obtain ⟨k', v'⟩ := hd
    by_cases hk : k' = k
    · subst hk
      simp [assocRemove, ih]
    · simp [assocRemove, assocFind, hk, ih]

theorem lookupByValue_append_self
    (xs : List (Capability × GridObject)) (c : Capability) (obj : GridObject)
    (h : lookupByValue xs obj = none) :
    lookupByValue (xs ++ [(c, obj)]) obj = some c := by
  induction xs with
  | nil => simp [lookupByValue]
  | cons hd tl ih =>
    obtain ⟨k, v⟩ := hd
    by_cases hv : v = obj
    · simp [lookupByValue, hv] at h
    · simp only [lookupByValue, hv, if_false, List.cons_append] at h ⊢
      exact ih h

/-! ## C7: content-addressed idempotence of `add_data` -/

/-- C7: adding bit-identical immutable data to the grid a second time
returns the very same capability as the first time, reported as not
freshly added, and the grid is unchanged — `add_data` is content-addressed
and idempotent. -/
theorem c7_add_data_idempotent (g g1 : Grid) (kind : String) (obj : GridObject)
    (c : Capability) (h : g.add_data kind obj = .ok (g1, (true, c))) :
    g1.add_data kind obj = .ok (g1, (false, c)) := by
  unfold Grid.add_data at h
  cases hl : lookupByValue g.data obj with
  | some k =>
    rw [hl] at h
    have h' : (Except.ok (g, (false, k)) : Except String (Grid × (Bool × Capability)))
        = .ok (g1, (true, c)) := h
    simp at h'
  | none =>
    rw [hl] at h
    have h' : (match g.addNewData kind obj with
        | .error e => (.error e : Except String (Grid × (Bool × Capability)))
        | .ok (g', cap) => .ok (g', (true, cap))) = .ok (g1, (true, c)) := h
    cases hadd : g.addNewData kind obj with
    | error e => rw [hadd] at h'; exact absurd h' (by simp)
    | ok r =>
      obtain ⟨g2, cap⟩ := r
      rw [hadd] at h'
      have h2 : (Except.ok (g2, (true, cap)) : Except String (Grid × (Bool × Capability)))
          = .ok (g1, (true, c)) := h'
      simp only [Except.ok.injEq, Prod.mk.injEq] at h2
      obtain ⟨hg, -, hc⟩ := h2
      unfold Grid.addNewData at hadd
      have hadd' : (if (assocFind g.data (⟨kind, g.counter kind + 1⟩ : Capability)).isSome = true
            then (Except.error "Internal error; key already exists somehow" :
                   Except String (Grid × Capability))
            else Except.ok (⟨g.data ++ [((⟨kind, g.counter kind + 1⟩ : Capability), obj)],
                   assocSet g.counters kind (g.counter kind + 1)⟩,
                 (⟨kind, g.counter kind + 1⟩ : Capability)))
          = Except.ok (g2, cap) := hadd
      by_cases hmem : (assocFind g.data (⟨kind, g.counter kind + 1⟩ : Capability)).isSome = true
      · rw [if_pos hmem] at hadd'
        exact absurd hadd' (by simp)
      · rw [if_neg hmem] at hadd'
        injection hadd' with h3
        injection h3 with hgd hcap
        have hdata : g1.data = g.data ++ [(c, obj)] := by
          rw [← hg, ← hgd, ← hc, ← hcap]
        unfold Grid.add_data
        rw [hdata, lookupByValue_append_self g.data c obj hl]

/-- Witness for C7 at a concrete input: the second addition of the blob
`[0]` to an initially empty grid returns the first capability, not fresh. -/
theorem c7_witness :
    (emptyGrid.add_data chkKind (.blob [0]) = .ok
      (⟨[(⟨chkKind, 1⟩, .blob [0])], [(chkKind, 1)]⟩, (true, ⟨chkKind, 1⟩))) ∧
    (Grid.add_data ⟨[(⟨chkKind, 1⟩, .blob [0])], [(chkKind, 1)]⟩ chkKind (.blob [0]) = .ok
      (⟨[(⟨chkKind, 1⟩, .blob [0])], [(chkKind, 1)]⟩, (false, ⟨chkKind, 1⟩))) :=
  ⟨by rfl, c7_add_data_idempotent emptyGrid _ chkKind (.blob [0]) ⟨chkKind, 1⟩ (by rfl)⟩

/-! ## C9: unknown schema version fails with a configuration error -/

/-- C9: loading a global configuration database whose version table holds
anything other than the known schema version fails with a
`ConfigurationError` — it neither migrates nor returns a configuration. -/
theorem c9_unknown_version_rejected (db : GlobalConfigDB)
    (h : db.version ≠ currentSchemaVersion) :
    load_global_configuration db =
      .error (.configurationError "unknown configuration database version") ∧
    ∀ cfg, load_global_configuration db ≠ .ok cfg := by
  unfold load_global_configuration
  rw [if_neg h]
  exact ⟨rfl, fun cfg hc => by simp at hc⟩

/-- Witness for C9 at the test's concrete input: version `0` (the value
`test_database_wrong_version` writes) is rejected. -/
theorem c9_witness :
    (GlobalConfigDB.mk 0 "tcp:1234" []).version ≠ currentSchemaVersion ∧
    load_global_configuration ⟨0, "tcp:1234", []⟩ =
      .error (.configurationError "unknown configuration database version") :=
  ⟨by decide, (c9_unknown_version_rejected ⟨0, "tcp:1234", []⟩ (by decide)).1⟩

/-! ## C10: duplicate magic-folder names are rejected without mutation -/

/-- C10: creating a magic folder under a name that is already registered
fails with the validation error naming the duplicate, and the
configuration is unchanged: the originally registered folder keeps its
original settings. -/
theorem c10_duplicate_folder_rejected (db : GlobalConfigDB) (name : String)
    (old next : MagicFolderCfg) (h : assocFind db.folders name = some old) :
    create_magic_folder db name next =
      (db, .error (.valueError ("Already have a magic-folder named '" ++ name ++ "'"))) ∧
    assocFind (create_magic_folder db name next).1.folders name = some old := by
  unfold create_magic_folder
  rw [h]
  exact ⟨rfl, h⟩

/-- The folder settings used by `test_create_folder_duplicate`. -/
def fooCfg : MagicFolderCfg :=
  ⟨"magic", "state", "alice",
   "URI:DIR2-RO:ou5wvazwlyzmqw7yof5ifmgmau:xqzt6uoulu4f3m627jtadpofnizjt3yoewzeitx47vw6memofeiq",
   "URI:DIR2:bgksdpr3lr2gvlvhydxjo2izea:dfdkjc44gg23n3fxcxd6ywsqvuuqzo4nrtqncrjzqmh4pamag2ia",
   60⟩

/-- Witness for C10 at the test's concrete input: after registering
`foo`, a second `create_magic_folder` for `foo` fails and leaves the
database unchanged. -/
theorem c10_witness :
    create_magic_folder ⟨1, "tcp:1234", [("foo", fooCfg)]⟩ "foo"
        ⟨"magic", "state2", "alice", fooCfg.collectiveCap, fooCfg.personalCap, 60⟩ =
      (⟨1, "tcp:1234", [("foo", fooCfg)]⟩,
       .error (.valueError "Already have a magic-folder named 'foo'")) :=
  (c10_duplicate_folder_rejected ⟨1, "tcp:1234", [("foo", fooCfg)]⟩ "foo" fooCfg
    ⟨"magic", "state2", "alice", fooCfg.collectiveCap, fooCfg.personalCap, 60⟩ rfl).1

/-! ## C8: one upload pass at startup, one per elapsed poll interval -/

theorem UploaderService.advance_add (a b : Nat) :
    ∀ s : UploaderService, s.advance (a + b) = (s.advance a).advance b := by
  induction a with
  | zero => intro s; rw [Nat.zero_add]; rfl
  | succ a ih =>
    intro s
    have : a + 1 + b = (a + b) + 1 := by omega
    rw [this]
    show s.tick.advance (a + b) = (s.tick.advance a).advance b
    exact ih s.tick

/-- A started service whose timer has `t` units left (`1 ≤ t`) fires
exactly once over the next `t` units and re-arms to its poll interval. -/
theorem UploaderService.advance_fires (p u : Nat) :
    ∀ t, 1 ≤ t →
      UploaderService.advance ⟨true, u, t, p⟩ t = ⟨true, u + 1, p, p⟩ := by
  intro t
  induction t with
  | zero => intro h; omega
  | succ t ih =>
    intro _
    show UploaderService.advance (UploaderService.tick ⟨true, u, t + 1, p⟩) t = _
    cases t with
    | zero =>
      simp [UploaderService.tick, UploaderService.advance]
    | succ t' =>
      have htick : UploaderService.tick ⟨true, u, t' + 1 + 1, p⟩ = ⟨true, u, t' + 1, p⟩ := rfl
      rw [htick]
      exact ih (by omega)

/-- From a just-fired state, each further poll interval fires exactly one
more pass. -/
theorem UploaderService.advance_cycles (p u : Nat) (hp : 1 ≤ p) :
    ∀ k, UploaderService.advance ⟨true, u, p, p⟩ (k * p) = ⟨true, u + k, p, p⟩ := by
  intro k
  induction k generalizing u with
  | zero => rw [Nat.zero_mul]; rfl
  | succ k ih =>
    have hmul : (k + 1) * p = p + k * p := by ring
    rw [hmul, UploaderService.advance_add,
        UploaderService.advance_fires p u p hp, ih (u + 1)]
    congr 1
    omega

/-- C8: starting the uploader service performs one upload pass
immediately, and each elapsed poll interval performs exactly one more, so
after `k` poll intervals the remote snapshot creator has run `k + 1`
times. -/
theorem c8_uploader_service_polls (p k : Nat) (hp : 1 ≤ p) :
    (((UploaderService.new p).startService).advance (k * p)).uploaded = k + 1 := by
  have hstart : (UploaderService.new p).startService = ⟨true, 1, p, p⟩ := by
    simp [UploaderService.new, UploaderService.startService]
  rw [hstart, UploaderService.advance_cycles p 1 hp k]
  exact Nat.add_comm 1 k

/-- Witness for C8 at the test's concrete input: poll interval 1; one
pass has run at startup plus one more after the clock advances by one
interval. -/
theorem c8_witness :
    1 ≤ 1 ∧ (((UploaderService.new 1).startService).advance (1 * 1)).uploaded = 1 + 1 :=
  ⟨le_refl 1, c8_uploader_service_polls 1 1 (le_refl 1)⟩

/-! ## C3: a failed upload leaves the local state untouched -/

/-- C3: if a grid operation during the upload of a head local snapshot
fails (the upload pipeline returns an error), the local state is
unchanged: the head local snapshot is still returned by the store's
local-snapshot lookup, its stashed content bytes equal the snapshotted
content, and the remote-snapshot pointer for the path is not advanced. -/
theorem c3_failed_upload_preserves_state (gs : GridServer) (st : SnapshotStore)
    (path author : String) (s : LocalSnapshot) (e : String)
    (hl : assocFind st.locals path = some s)
    (ha : s.author = author)
    (hup : uploadSnapshot gs s = .error e) :
    process_head gs st path = (gs, st) ∧
    (process_head gs st path).2.get_local_snapshot path author = .ok s ∧
    ((process_head gs st path).2.get_local_snapshot path author).map
      LocalSnapshot.content = .ok s.content ∧
    (process_head gs st path).2.get_remotesnapshot path = st.get_remotesnapshot path := by
  have hph : process_head gs st path = (gs, st) := by
    unfold process_head
    rw [hl]
    show (match uploadSnapshot gs s with
      | .error _ => (gs, st)
      | .ok (gs', cap) => (gs', st.store_remote path cap)) = (gs, st)
    rw [hup]
  have hloc : st.get_local_snapshot path author = .ok s := by
    unfold SnapshotStore.get_local_snapshot
    rw [hl]
    show (if s.author = author then Except.ok s else Except.error snapshotNotFound) = .ok s
    rw [if_pos ha]
  refine ⟨hph, ?_, ?_, ?_⟩
  · rw [hph]
    exact hloc
  · rw [hph]
    show (st.get_local_snapshot path author).map LocalSnapshot.content = .ok s.content
    rw [hloc]
    rfl
  · rw [hph]

/-- The two-version local snapshot chain of
`test_write_snapshot_to_tahoe_fails` (contents `[0]` then `[1]`). -/
def brokenChainSnap : LocalSnapshot :=
  .mk "foo" "alice" [1] [.mk "foo" "alice" [0] [] []] []

/-- Witness for C3 at the test's concrete input: against the all-500
grid, uploading the two-snapshot chain fails and the store keeps the head
snapshot, its content, and the (absent) remote pointer. -/
theorem c3_witness :
    process_head .broken ⟨[("foo", brokenChainSnap)], [], []⟩ "foo" =
      (.broken, ⟨[("foo", brokenChainSnap)], [], []⟩) ∧
    SnapshotStore.get_local_snapshot ⟨[("foo", brokenChainSnap)], [], []⟩ "foo" "alice" =
      .ok brokenChainSnap :=
  ⟨(c3_failed_upload_preserves_state .broken ⟨[("foo", brokenChainSnap)], [], []⟩
      "foo" "alice" brokenChainSnap gridError rfl rfl rfl).1,
   by rfl⟩

/-! ## C4: at most one head per path; chains grow through parents -/

/-- A sequence of successive local snapshot creations of one path. -/
def snapshotSequence (p a : String) (st : SnapshotStore) (cs : List (List Nat)) :
    SnapshotStore :=
  cs.foldl (fun st c => SnapshotStore.create_and_store st p a c) st

theorem snapshotSequence_nil (p a : String) (st : SnapshotStore) :
    snapshotSequence p a st [] = st := rfl

theorem snapshotSequence_cons (p a : String) (st : SnapshotStore) (c : List Nat)
    (cs : List (List Nat)) :
    snapshotSequence p a st (c :: cs) =
      snapshotSequence p a (st.create_and_store p a c) cs := rfl

/-- Folding further snapshot creations over a store whose single pending
path `p` heads snapshot `s` keeps exactly that head, extending its
local-parent chain once per creation and preserving the deepest
ancestor's remote parents. -/
theorem c4_chain_growth (p a : String) (R : Capability) :
    ∀ (cs : List (List Nat)) (s : LocalSnapshot),
      ∃ s' : LocalSnapshot,
        snapshotSequence p a ⟨[(p, s)], [(p, R)], []⟩ cs = ⟨[(p, s')], [(p, R)], []⟩ ∧
        s'.chainLen = s.chainLen + cs.length ∧
        s'.deepestRemotes = s.deepestRemotes := by
  intro cs
  induction cs with
  | nil =>
    intro s
    exact ⟨s, rfl, by simp, rfl⟩
  | cons c rest ih =>
    intro s
    have hstep : SnapshotStore.create_and_store ⟨[(p, s)], [(p, R)], []⟩ p a c =
        ⟨[(p, LocalSnapshot.mk p a c [s] [])], [(p, R)], []⟩ := by
      unfold SnapshotStore.create_and_store
      have hfind : assocFind [(p, s)] p = some s := by
        simp [assocFind]
      rw [hfind]
      show SnapshotStore.store_local_snapshot ⟨[(p, s)], [(p, R)], []⟩
          (LocalSnapshot.mk p a c [s] []) = _
      unfold SnapshotStore.store_local_snapshot
      simp [LocalSnapshot.name, assocSet]
    rw [snapshotSequence_cons, hstep]
    obtain ⟨s', hfold, hlen, hdeep⟩ := ih (LocalSnapshot.mk p a c [s] [])
    refine ⟨s', hfold, ?_, ?_⟩
    · rw [hlen]
      show s.chainLen + 1 + rest.length = s.chainLen + (rest.length + 1)
      omega
    · rw [hdeep]
      rfl

/-- C4: starting from a store whose only record for path `p` is the
previously uploaded remote capability `R`, making `N ≥ 1` successive
local snapshots of `p` leaves exactly that one path pending, the head's
local-parent chain has length `N - 1`, and the deepest local ancestor
carries `R` as its single remote parent. -/
theorem c4_one_head_per_path (p a : String) (R : Capability)
    (contents : List (List Nat)) (hne : contents ≠ []) :
    (snapshotSequence p a ⟨[], [(p, R)], []⟩ contents).all_local_paths = [p] ∧
    ∃ s : LocalSnapshot,
      assocFind (snapshotSequence p a ⟨[], [(p, R)], []⟩ contents).locals p = some s ∧
      s.chainLen = contents.length - 1 ∧
      s.deepestRemotes = [R] := by
  obtain ⟨c0, rest, rfl⟩ := List.exists_cons_of_ne_nil hne
  have hfirst : SnapshotStore.create_and_store ⟨[], [(p, R)], []⟩ p a c0 =
      ⟨[(p, LocalSnapshot.mk p a c0 [] [R])], [(p, R)], []⟩ := by
    unfold SnapshotStore.create_and_store
    show SnapshotStore.store_local_snapshot ⟨[], [(p, R)], []⟩
        (LocalSnapshot.mk p a c0 []
          (match assocFind [(p, R)] p with | some r => [r] | none => [])) = _
    have hrem : assocFind [(p, R)] p = some R := by simp [assocFind]
    rw [hrem]
    rfl
  rw [snapshotSequence_cons, hfirst]
  obtain ⟨s', hfold, hlen, hdeep⟩ :=
    c4_chain_growth p a R rest (LocalSnapshot.mk p a c0 [] [R])
  rw [hfold]
  refine ⟨rfl, s', ?_, ?_, ?_⟩
  · simp [assocFind]
  · rw [hlen]
    show LocalSnapshot.chainLen (LocalSnapshot.mk p a c0 [] [R]) + rest.length
        = (c0 :: rest).length - 1
    simp [LocalSnapshot.chainLen]
  · rw [hdeep]
    rfl

/-- Witness for C4 at the integration test's shape
(`test_local_snapshots`): three successive snapshots of one path give one
pending path, a head chain of length 2, and the deepest ancestor holding
the prior remote capability. -/
theorem c4_witness :
    ([[1], [2], [3]] : List (List Nat)) ≠ [] ∧
    (snapshotSequence "sylvester" "alice" ⟨[], [("sylvester", ⟨dirChkKind, 1⟩)], []⟩
        [[1], [2], [3]]).all_local_paths = ["sylvester"] ∧
    ∃ s : LocalSnapshot,
      assocFind (snapshotSequence "sylvester" "alice"
          ⟨[], [("sylvester", ⟨dirChkKind, 1⟩)], []⟩ [[1], [2], [3]]).locals
          "sylvester" = some s ∧
      s.chainLen = ([[1], [2], [3]] : List (List Nat)).length - 1 ∧
      s.deepestRemotes = [⟨dirChkKind, 1⟩] :=
  ⟨by simp,
   c4_one_head_per_path "sylvester" "alice" ⟨dirChkKind, 1⟩ [[1], [2], [3]] (by simp)⟩

/-! ## C1: the write → snapshot → upload → read-back round trip -/

/-- The fake grid's state after uploading a single parentless local
snapshot of `(name, content)` by `author` to a fresh grid: the content
blob, the metadata blob, and the snapshot directory. -/
def c1Grid (name author : String) (content : List Nat) : Grid :=
  ⟨[(⟨chkKind, 1⟩, .blob content),
    (⟨chkKind, 2⟩, .metablob name author []),
    (⟨dirChkKind, 1⟩, .dir [("content", ⟨chkKind, 1⟩), ("metadata", ⟨chkKind, 2⟩)])],
   [(chkKind, 2), (dirChkKind, 1)]⟩

/-- C1: for every path and byte string, writing the file, producing a
local snapshot, uploading it to the (fresh, fake) grid, and reading back
the resulting remote snapshot's content blob yields exactly the original
content. -/
theorem c1_round_trip (name author : String) (content : List Nat) :
    ∃ cap : Capability,
      (process_head (.fake emptyGrid)
          (emptyStore.create_and_store name author content) name).2.get_remotesnapshot
          name = .ok cap ∧
      readRemoteContent
          (process_head (.fake emptyGrid)
            (emptyStore.create_and_store name author content) name).1 cap = .ok content := by
  refine ⟨⟨dirChkKind, 1⟩, ?_, ?_⟩ <;>
  · have hstore : emptyStore.create_and_store name author content =
        ⟨[(name, LocalSnapshot.mk name author content [] [])], [], []⟩ := rfl
    have hup : uploadSnapshot (.fake emptyGrid)
          (LocalSnapshot.mk name author content [] []) =
        .ok (.fake (c1Grid name author content), ⟨dirChkKind, 1⟩) := rfl
    have hfind : assocFind [(name, LocalSnapshot.mk name author content [] [])] name =
        some (LocalSnapshot.mk name author content [] []) := by
      simp [assocFind]
    have hph : process_head (.fake emptyGrid)
          (emptyStore.create_and_store name author content) name =
        (.fake (c1Grid name author content), ⟨[], [(name, ⟨dirChkKind, 1⟩)], []⟩) := by
      rw [hstore]
      unfold process_head
      rw [hfind]
      show (match uploadSnapshot (.fake emptyGrid)
            (LocalSnapshot.mk name author content [] []) with
        | .error _ =>
            ((.fake emptyGrid : GridServer),
             (⟨[(name, LocalSnapshot.mk name author content [] [])], [], []⟩ : SnapshotStore))
        | .ok (gs', cap) =>
            (gs', SnapshotStore.store_remote
              ⟨[(name, LocalSnapshot.mk name author content [] [])], [], []⟩ name cap)) = _
      rw [hup]
      show (GridServer.fake (c1Grid name author content),
            SnapshotStore.store_remote
              ⟨[(name, LocalSnapshot.mk name author content [] [])], [], []⟩ name
              ⟨dirChkKind, 1⟩) = _
      unfold SnapshotStore.store_remote
      simp [assocRemove, assocSet]
    rw [hph]
    · first
      | · unfold SnapshotStore.get_remotesnapshot
          simp [assocFind]
      | rfl

/-! ## C2: a successful upload commits the remote pointer and clears the
local chain

To know the committed capability is a valid grid capability we track a
well-formedness invariant of the fake grid: every stored capability has a
known kind and an index between 1 and its kind's generator counter (so a
freshly generated capability is never already a key). -/

def GridWF (g : Grid) : Prop :=
  ∀ cv ∈ g.data, validCap cv.1 ∧ 1 ≤ cv.1.index ∧ cv.1.index ≤ g.counter cv.1.kind

def GridServerWF : GridServer → Prop
  | .fake g => GridWF g
  | .broken => True

theorem assocFind_assocSet_ne {α β : Type} [DecidableEq α]
    (xs : List (α × β)) (k k' : α) (v : β) (h : k' ≠ k) :
    assocFind (assocSet xs k v) k' = assocFind xs k' := by
  induction xs with
  | nil =>
    show (if k = k' then some v else assocFind [] k') = assocFind ([] : List (α × β)) k'
    rw [if_neg (fun h' => h h'.symm)]
  | cons hd tl ih =>
    obtain ⟨k0, v0⟩ := hd
    by_cases hk : k0 = k
    · subst hk
      show assocFind (if k0 = k0 then (k0, v) :: tl else (k0, v0) :: assocSet tl k0 v) k'
          = assocFind ((k0, v0) :: tl) k'
      rw [if_pos rfl]
      show (if k0 = k' then some v else assocFind tl k')
          = if k0 = k' then some v0 else assocFind tl k'
      rw [if_neg (fun h' => h h'.symm), if_neg (fun h' => h h'.symm)]
    · show assocFind (if k0 = k then (k, v) :: tl else (k0, v0) :: assocSet tl k v) k'
          = assocFind ((k0, v0) :: tl) k'
      rw [if_neg hk]
      show (if k0 = k' then some v0 else assocFind (assocSet tl k v) k')
          = if k0 = k' then some v0 else assocFind tl k'
      rw [ih]

theorem lookupByValue_mem (xs : List (Capability × GridObject)) (obj : GridObject)
    (k : Capability) (h : lookupByValue xs obj = some k) : (k, obj) ∈ xs := by
  induction xs with
  | nil => simp [lookupByValue] at h
  | cons hd tl ih =>
    obtain ⟨k0, v0⟩ := hd
    by_cases hv : v0 = obj
    · subst hv
      have h' : (if v0 = v0 then some k0 else lookupByValue tl v0) = some k := h
      rw [if_pos rfl] at h'
      injection h' with h2
      subst h2
      exact List.mem_cons_self _ _
    · have h' : (if v0 = obj then some k0 else lookupByValue tl obj) = some k := h
      rw [if_neg hv] at h'
      exact List.mem_cons_of_mem _ (ih h')

/-- `add_data` of a known kind preserves grid well-formedness and returns
a valid capability. -/
theorem add_data_wf (g g' : Grid) (kind : String) (obj : GridObject)
    (fresh : Bool) (cap : Capability)
    (hkind : kind ∈ knownKinds) (hwf : GridWF g)
    (h : g.add_data kind obj = .ok (g', (fresh, cap))) :
    GridWF g' ∧ validCap cap := by
  unfold Grid.add_data at h
  cases hl : lookupByValue g.data obj with
  | some k =>
    rw [hl] at h
    have h' : (Except.ok (g, (false, k)) : Except String (Grid × (Bool × Capability)))
        = .ok (g', (fresh, cap)) := h
    simp only [Except.ok.injEq, Prod.mk.injEq] at h'
    obtain ⟨hg, -, hc⟩ := h'
    subst hg
    subst hc
    exact ⟨hwf, (hwf _ (lookupByValue_mem g.data obj k hl)).1⟩
  | none =>
    rw [hl] at h
    have h' : (match g.addNewData kind obj with
        | .error e => (.error e : Except String (Grid × (Bool × Capability)))
        | .ok (g2, c2) => .ok (g2, (true, c2))) = .ok (g', (fresh, cap)) := h
    cases hadd : g.addNewData kind obj with
    | error e => rw [hadd] at h'; exact absurd h' (by simp)
    | ok r =>
      obtain ⟨g2, c2⟩ := r
      rw [hadd] at h'
      have h2 : (Except.ok (g2, (true, c2)) : Except String (Grid × (Bool × Capability)))
          = .ok (g', (fresh, cap)) := h'
      simp only [Except.ok.injEq, Prod.mk.injEq] at h2
      obtain ⟨hg, -, hc⟩ := h2
      unfold Grid.addNewData at hadd
      have hadd' : (if (assocFind g.data (⟨kind, g.counter kind + 1⟩ : Capability)).isSome = true
            then (Except.error "Internal error; key already exists somehow" :
                   Except String (Grid × Capability))
            else Except.ok (⟨g.data ++ [((⟨kind, g.counter kind + 1⟩ : Capability), obj)],
                   assocSet g.counters kind (g.counter kind + 1)⟩,
                 (⟨kind, g.counter kind + 1⟩ : Capability)))
          = Except.ok (g2, c2) := hadd
      by_cases hmem : (assocFind g.data (⟨kind, g.counter kind + 1⟩ : Capability)).isSome = true
      · rw [if_pos hmem] at hadd'
        exact absurd hadd' (by simp)
      · rw [if_neg hmem] at hadd'
        injection hadd' with h3
        injection h3 with hgd hcap
        subst hg
        subst hc
        rw [← hgd, ← hcap]
        have hcounter : ∀ kk : String,
            Grid.counter ⟨g.data ++ [((⟨kind, g.counter kind + 1⟩ : Capability), obj)],
              assocSet g.counters kind (g.counter kind + 1)⟩ kk =
            if kk = kind then g.counter kind + 1 else g.counter kk := by
          intro kk
          by_cases hkk : kk = kind
          · subst hkk
            show (assocFind (assocSet g.counters kk (g.counter kk + 1)) kk).getD 0 = _
            rw [assocFind_assocSet_self]
            simp
          · show (assocFind (assocSet g.counters kind (g.counter kind + 1)) kk).getD 0 = _
            rw [assocFind_assocSet_ne _ _ _ _ hkk, if_neg hkk]
            rfl
        constructor
        · intro cv hmem2
          have hmem3 : cv ∈ g.data ∨
              cv = ((⟨kind, g.counter kind + 1⟩ : Capability), obj) := by
            have := List.mem_append.mp hmem2
            simpa using this
          rcases hmem3 with hold | hnew
          · obtain ⟨hv, h1, hle⟩ := hwf cv hold
            refine ⟨hv, h1, ?_⟩
            rw [hcounter cv.1.kind]
            by_cases hkk : cv.1.kind = kind
            · rw [if_pos hkk]
              rw [hkk] at hle
              omega
            · rw [if_neg hkk]
              exact hle
          · subst hnew
            refine ⟨hkind, ?_, ?_⟩
            · show 1 ≤ g.counter kind + 1
              omega
            · show g.counter kind + 1 ≤ Grid.counter
                ⟨g.data ++ [((⟨kind, g.counter kind + 1⟩ : Capability), obj)],
                  assocSet g.counters kind (g.counter kind + 1)⟩ kind
              rw [hcounter kind, if_pos rfl]
        · exact hkind

theorem putImmutable_wf (gs gs' : GridServer) (obj : GridObject) (cap : Capability)
    (hwf : GridServerWF gs) (h : gs.putImmutable obj = .ok (gs', cap)) :
    GridServerWF gs' ∧ validCap cap := by
  cases gs with
  | broken => exact absurd h (by simp [GridServer.putImmutable])
  | fake g =>
    have h' : (match g.add_data chkKind obj with
        | .error e => (.error e : Except String (GridServer × Capability))
        | .ok (g2, _, c2) => .ok (.fake g2, c2)) = .ok (gs', cap) := h
    cases hadd : g.add_data chkKind obj with
    | error e => rw [hadd] at h'; exact absurd h' (by simp)
    | ok r =>
      obtain ⟨g2, fresh, c2⟩ := r
      rw [hadd] at h'
      have h2 : (Except.ok (GridServer.fake g2, c2) :
          Except String (GridServer × Capability)) = .ok (gs', cap) := h'
      simp only [Except.ok.injEq, Prod.mk.injEq] at h2
      obtain ⟨hg, hc⟩ := h2
      subst hg
      subst hc
      exact add_data_wf g g2 chkKind obj fresh c2 (by simp [knownKinds]) hwf hadd

theorem mkdirImmutable_wf (gs gs' : GridServer) (entries : List (String × Capability))
    (cap : Capability) (hwf : GridServerWF gs)
    (h : gs.mkdirImmutable entries = .ok (gs', cap)) :
    GridServerWF gs' ∧ validCap cap := by
  cases gs with
  | broken => exact absurd h (by simp [GridServer.mkdirImmutable])
  | fake g =>
    have h' : (match g.add_data dirChkKind (.dir entries) with
        | .error e => (.error e : Except String (GridServer × Capability))
        | .ok (g2, _, c2) => .ok (.fake g2, c2)) = .ok (gs', cap) := h
    cases hadd : g.add_data dirChkKind (.dir entries) with
    | error e => rw [hadd] at h'; exact absurd h' (by simp)
    | ok r =>
      obtain ⟨g2, fresh, c2⟩ := r
      rw [hadd] at h'
      have h2 : (Except.ok (GridServer.fake g2, c2) :
          Except String (GridServer × Capability)) = .ok (gs', cap) := h'
      simp only [Except.ok.injEq, Prod.mk.injEq] at h2
      obtain ⟨hg, hc⟩ := h2
      subst hg
      subst hc
      exact add_data_wf g g2 dirChkKind (.dir entries) fresh c2
        (by simp [knownKinds]) hwf hadd

/-- The upload pipeline preserves grid well-formedness and returns valid
capabilities (simultaneous strong induction over the snapshot tree). -/
theorem upload_wf_main : ∀ N : Nat,
    (∀ s : LocalSnapshot, sizeOf s < N → ∀ gs gs' cap, GridServerWF gs →
      uploadSnapshot gs s = .ok (gs', cap) → GridServerWF gs' ∧ validCap cap) ∧
    (∀ l : List LocalSnapshot, sizeOf l < N → ∀ gs gs' caps, GridServerWF gs →
      uploadParents gs l = .ok (gs', caps) → GridServerWF gs') := by
  intro N
  induction N using Nat.strong_induction_on with
  | _ N ih =>
    constructor
    · intro s hs gs gs' cap hwf hup
      rw [uploadSnapshot.eq_def] at hup
      split at hup
      rename_i n a c psL psR
      have hpsL : sizeOf psL < sizeOf (LocalSnapshot.mk n a c psL psR) := by
        simp [LocalSnapshot.mk.sizeOf_spec]
        omega
      split at hup
      · exact absurd hup (by simp)
      · rename_i gs1 localCaps hpar
        split at hup
        · exact absurd hup (by simp)
        · rename_i gs2 contentCap hcont
          split at hup
          · exact absurd hup (by simp)
          · rename_i gs3 metadataCap hmeta
            split at hup
            · exact absurd hup (by simp)
            · rename_i gs4 snapshotCap hdir
              have h1 : GridServerWF gs1 :=
                (ih (sizeOf (LocalSnapshot.mk n a c psL psR)) hs).2 psL hpsL
                  gs gs1 localCaps hwf hpar
              have h2 := putImmutable_wf gs1 gs2 (.blob c) contentCap h1 hcont
              have h3 := putImmutable_wf gs2 gs3 (.metablob n a (localCaps ++ psR))
                metadataCap h2.1 hmeta
              have h4 := mkdirImmutable_wf gs3 gs4
                ([("content", contentCap), ("metadata", metadataCap)]
                  ++ parentEntries (localCaps ++ psR)) snapshotCap h3.1 hdir
              have h5 : (Except.ok (gs4, snapshotCap) :
                  Except String (GridServer × Capability)) = .ok (gs', cap) := hup
              simp only [Except.ok.injEq, Prod.mk.injEq] at h5
              obtain ⟨hg, hc⟩ := h5
              subst hg
              subst hc
              exact h4
    · intro l hl gs gs' caps hwf hup
      cases l with
      | nil =>
        rw [uploadParents.eq_def] at hup
        have h' : (Except.ok (gs, ([] : List Capability)) :
            Except String (GridServer × List Capability)) = .ok (gs', caps) := hup
        simp only [Except.ok.injEq, Prod.mk.injEq] at h'
        obtain ⟨hg, -⟩ := h'
        subst hg
        exact hwf
      | cons p rest =>
        have hp : sizeOf p < sizeOf (p :: rest) := by
          simp only [List.cons.sizeOf_spec]
          omega
        have hrest : sizeOf rest < sizeOf (p :: rest) := by
          simp only [List.cons.sizeOf_spec]
          omega
        have hup' : (match uploadSnapshot gs p with
          | .error e => (.error e : Except String (GridServer × List Capability))
          | .ok (gs1, cap1) =>
            match uploadParents gs1 rest with
            | .error e => .error e
            | .ok (gs2, caps2) => .ok (gs2, cap1 :: caps2)) = .ok (gs', caps) := hup
        cases hone : uploadSnapshot gs p with
        | error e => rw [hone] at hup'; exact absurd hup' (by simp)
        | ok r =>
          obtain ⟨gs1, cap1⟩ := r
          rw [hone] at hup'
          have hup2 : (match uploadParents gs1 rest with
            | .error e => (.error e : Except String (GridServer × List Capability))
            | .ok (gs2, caps2) => .ok (gs2, cap1 :: caps2)) = .ok (gs', caps) := hup'
          cases hmore : uploadParents gs1 rest with
          | error e => rw [hmore] at hup2; exact absurd hup2 (by simp)
          | ok r2 =>
            obtain ⟨gs2, caps2⟩ := r2
            rw [hmore] at hup2
            have h3 : (Except.ok (gs2, cap1 :: caps2) :
                Except String (GridServer × List Capability)) = .ok (gs', caps) := hup2
            simp only [Except.ok.injEq, Prod.mk.injEq] at h3
            obtain ⟨hg, -⟩ := h3
            have h1 : GridServerWF gs1 :=
              ((ih (sizeOf (p :: rest)) hl).1 p hp gs gs1 cap1 hwf hone).1
            exact hg ▸ (ih (sizeOf (p :: rest)) hl).2 rest hrest gs1 gs2 caps2 h1 hmore

/-- A successful upload from a well-formed grid yields a well-formed grid
and a valid capability. -/
theorem uploadSnapshot_wf (gs gs' : GridServer) (s : LocalSnapshot) (cap : Capability)
    (hwf : GridServerWF gs) (h : uploadSnapshot gs s = .ok (gs', cap)) :
    GridServerWF gs' ∧ validCap cap :=
  (upload_wf_main (sizeOf s + 1)).1 s (by omega) gs gs' cap hwf h

/-- C2: after the remote snapshot creator successfully uploads the head
local snapshot of a path, the store returns a valid grid capability as
that path's remote snapshot, and the local-snapshot lookup for the
`(path, author)` fails with *not-found*: the local chain was deleted in
the same atomic commit that set the remote capability. -/
theorem c2_upload_commits (gs : GridServer) (st : SnapshotStore) (path author : String)
    (s : LocalSnapshot) (gs' : GridServer) (cap : Capability)
    (hwf : GridServerWF gs)
    (hl : assocFind st.locals path = some s)
    (hup : uploadSnapshot gs s = .ok (gs', cap)) :
    (process_head gs st path).2.get_remotesnapshot path = .ok cap ∧
    validCap cap ∧
    (process_head gs st path).2.get_local_snapshot path author =
      .error snapshotNotFound := by
  have hph : process_head gs st path = (gs', st.store_remote path cap) := by
    unfold process_head
    rw [hl]
    show (match uploadSnapshot gs s with
      | .error _ => (gs, st)
      | .ok (gs2, c2) => (gs2, st.store_remote path c2)) = _
    rw [hup]
  rw [hph]
  refine ⟨?_, (uploadSnapshot_wf gs gs' s cap hwf hup).2, ?_⟩
  · unfold SnapshotStore.store_remote SnapshotStore.get_remotesnapshot
    rw [show (⟨assocRemove st.locals path, assocSet st.remotes path cap,
        st.conflicts⟩ : SnapshotStore).remotes = assocSet st.remotes path cap from rfl,
      assocFind_assocSet_self]
  · unfold SnapshotStore.store_remote SnapshotStore.get_local_snapshot
    rw [show (⟨assocRemove st.locals path, assocSet st.remotes path cap,
        st.conflicts⟩ : SnapshotStore).locals = assocRemove st.locals path from rfl,
      assocFind_assocRemove_self]

/-- Witness for C2 at a concrete input: a single parentless snapshot of
`("foo", [0])` uploaded to the fresh fake grid; the store then has a
valid remote capability for `foo` and no local snapshot. -/
theorem c2_witness :
    (process_head (.fake emptyGrid)
        ⟨[("foo", LocalSnapshot.mk "foo" "alice" [0] [] [])], [], []⟩
        "foo").2.get_remotesnapshot "foo" = .ok ⟨dirChkKind, 1⟩ ∧
    validCap ⟨dirChkKind, 1⟩ ∧
    (process_head (.fake emptyGrid)
        ⟨[("foo", LocalSnapshot.mk "foo" "alice" [0] [] [])], [], []⟩
        "foo").2.get_local_snapshot "foo" "alice" = .error snapshotNotFound :=
  c2_upload_commits (.fake emptyGrid)
    ⟨[("foo", LocalSnapshot.mk "foo" "alice" [0] [] [])], [], []⟩ "foo" "alice"
    (LocalSnapshot.mk "foo" "alice" [0] [] [])
    (.fake (c1Grid "foo" "alice" [0])) ⟨dirChkKind, 1⟩
    (by intro cv h; simp [emptyGrid] at h) rfl rfl

/-! ## C5: a locally pending path conflicts instead of being overwritten -/

/-- C5: for a path with a pending (unuploaded) local snapshot, when a
peer strictly advances the remote version (our capability is an ancestor
of theirs and theirs is not an ancestor of ours), the downloader records
a conflict and writes the incoming content to the conflict sibling file;
the working file keeps the locally written content and the remote
pointer is not advanced. -/
theorem c5_pending_local_conflicts (gs : GridServer) (st : SnapshotStore)
    (pname path : String) (their ours : Capability) (working incoming : List Nat)
    (s : LocalSnapshot)
    (hpend : assocFind st.locals path = some s)
    (hours : assocFind st.remotes path = some ours)
    (hne : their ≠ ours)
    (hadv : isAncestor gs ours their ancestryDepthBound = true)
    (hnot : isAncestor gs their ours ancestryDepthBound = false)
    (hread : readRemoteContent gs their = .ok incoming) :
    downloader_step gs st pname path their working =
      .ok (st.recordConflict path pname their, working,
           some (path ++ ".conflict-" ++ pname, incoming)) ∧
    (st.recordConflict path pname their).remotes = st.remotes ∧
    (st.recordConflict path pname their).locals = st.locals ∧
    (st.recordConflict path pname their).conflicts =
      st.conflicts ++ [(path, pname, their)] := by
  refine ⟨?_, rfl, rfl, rfl⟩
  unfold downloader_step
  rw [hours]
  rw [if_neg (fun hh => hne ((Option.some.inj hh).symm))]
  rw [show theirAncestorOf gs (some ours) their
      = isAncestor gs their ours ancestryDepthBound from rfl, hnot]
  rw [if_neg (by simp)]
  rw [hread]
  show (if (assocFind st.locals path).isSome = true then _ else _) = _
  rw [hpend]
  rw [if_pos (show (some s).isSome = true from rfl)]

/-! Concrete two-snapshot history for the downloader witnesses: `ours`
is a root remote snapshot, `theirs` its child (one `parent0` link). -/

def oursCap : Capability := ⟨dirChkKind, 1⟩

def theirsCap : Capability := ⟨dirChkKind, 2⟩

/-- A fake grid holding the two-snapshot history: content blobs `[0]`
and `[1]`, `ours` (root) and `theirs` (child of `ours`). -/
def demoGrid : GridServer :=
  .fake ⟨[(⟨chkKind, 1⟩, .blob [0]),
          (oursCap, .dir [("content", ⟨chkKind, 1⟩)]),
          (⟨chkKind, 2⟩, .blob [1]),
          (theirsCap, .dir [("content", ⟨chkKind, 2⟩), ("parent0", oursCap)])],
         [(chkKind, 2), (dirChkKind, 2)]⟩

/-- The store of a participant who is at `ours` with a pending local
snapshot of the path (its parent being `ours`), as in `test_ancestors`. -/
def pendingStore : SnapshotStore :=
  ⟨[("sylvester", .mk "sylvester" "bob" [9] [] [oursCap])],
   [("sylvester", oursCap)], []⟩

/-- Witness for C5 at the `test_ancestors` shape: bob has local content
`[9]` pending over `ours`; alice advances to `theirs`; bob's downloader
conflicts, keeps `[9]` in the working file, and does not advance. -/
theorem c5_witness :
    downloader_step demoGrid pendingStore "alice" "sylvester" theirsCap [9] =
      .ok (pendingStore.recordConflict "sylvester" "alice" theirsCap, [9],
           some ("sylvester.conflict-alice", [1])) ∧
    (pendingStore.recordConflict "sylvester" "alice" theirsCap).remotes =
      pendingStore.remotes ∧
    (pendingStore.recordConflict "sylvester" "alice" theirsCap).locals =
      pendingStore.locals ∧
    (pendingStore.recordConflict "sylvester" "alice" theirsCap).conflicts =
      pendingStore.conflicts ++ [("sylvester", "alice", theirsCap)] :=
  c5_pending_local_conflicts demoGrid pendingStore "alice" "sylvester"
    theirsCap oursCap [9] [1] (.mk "sylvester" "bob" [9] [] [oursCap])
    rfl rfl (by decide) (by decide) (by decide) rfl

/-! ## C6: fast-forward updates and ignores

The claim as stated is falsified by a path with a pending local
snapshot: there the tie-break of §4.6 (and `test_ancestors`) demands a
conflict, so the updater creates a conflict sibling and does not advance
the pointer even though our capability is an ancestor of theirs. -/

/-- C6 counterexample: with a pending local snapshot and `ours` an
ancestor of `theirs`, the updater does *not* write the working file nor
advance the pointer — it records a conflict sibling — contradicting the
claim's unconditional update case. -/
theorem c6_counterexample :
    isAncestor demoGrid oursCap theirsCap ancestryDepthBound = true ∧
    downloader_step demoGrid pendingStore "alice" "sylvester" theirsCap [9] =
      .ok (pendingStore.recordConflict "sylvester" "alice" theirsCap, [9],
           some ("sylvester.conflict-alice", [1])) ∧
    assocFind (pendingStore.recordConflict "sylvester" "alice" theirsCap).remotes
      "sylvester" = some oursCap ∧
    oursCap ≠ theirsCap :=
  ⟨by decide, by rfl, by rfl, by decide⟩

/-- C6 (amended): for every observed peer entry `(path, their)` whose
path has *no pending local snapshot*: if our last-known remote capability
is a strict ancestor of `their` (ours an ancestor of theirs, theirs not
of ours) the updater downloads the content, writes the working file, and
advances the remote pointer to `their`; if `their` is an ancestor of ours
it does nothing; in both cases no conflict sibling file is created. -/
theorem c6_update_or_ignore (gs : GridServer) (st : SnapshotStore)
    (pname path : String) (their ours : Capability) (working incoming : List Nat)
    (hnopend : assocFind st.locals path = none)
    (hours : assocFind st.remotes path = some ours) :
    (their ≠ ours →
      isAncestor gs their ours ancestryDepthBound = false →
      isAncestor gs ours their ancestryDepthBound = true →
      readRemoteContent gs their = .ok incoming →
      downloader_step gs st pname path their working =
        .ok (st.store_remote path their, incoming, none) ∧
      assocFind (st.store_remote path their).remotes path = some their) ∧
    (isAncestor gs their ours ancestryDepthBound = true →
      downloader_step gs st pname path their working = .ok (st, working, none)) := by
  constructor
  · intro hne hnot hadv hread
    constructor
    · unfold downloader_step
      rw [hours]
      rw [if_neg (fun hh => hne ((Option.some.inj hh).symm))]
      rw [show theirAncestorOf gs (some ours) their
          = isAncestor gs their ours ancestryDepthBound from rfl, hnot]
      rw [if_neg (by simp)]
      rw [hread]
      show (if (assocFind st.locals path).isSome = true then _ else _) = _
      rw [hnopend]
      rw [if_neg (by simp)]
      rw [show ourAncestorOf gs (some ours) their
          = isAncestor gs ours their ancestryDepthBound from rfl, hadv]
      rw [if_pos rfl]
    · unfold SnapshotStore.store_remote
      show assocFind (assocSet st.remotes path their) path = some their
      rw [assocFind_assocSet_self]
  · intro htheir
    unfold downloader_step
    rw [hours]
    by_cases heq : their = ours
    · rw [if_pos (by rw [heq])]
    · rw [if_neg (fun hh => heq ((Option.some.inj hh).symm))]
      rw [show theirAncestorOf gs (some ours) their
          = isAncestor gs their ours ancestryDepthBound from rfl, htheir]
      rw [if_pos rfl]

/-- A participant with no pending local snapshot, sitting at `ours`. -/
def noPendingStore : SnapshotStore := ⟨[], [("sylvester", oursCap)], []⟩

/-- A participant with no pending local snapshot, already at `theirs`
(ahead of the peer entry it will observe). -/
def aheadStore : SnapshotStore := ⟨[], [("sylvester", theirsCap)], []⟩

/-- Witness for C6 (amended) at the `test_create_then_recover` /
`test_recover_twice` shapes: a fast-forward from `ours` to `theirs`
writes the incoming content and advances the pointer with no conflict
file; observing a stale peer entry while ahead does nothing. -/
theorem c6_witness :
    (downloader_step demoGrid noPendingStore "alice" "sylvester" theirsCap [0] =
      .ok (noPendingStore.store_remote "sylvester" theirsCap, [1], none) ∧
     assocFind (noPendingStore.store_remote "sylvester" theirsCap).remotes
       "sylvester" = some theirsCap) ∧
    downloader_step demoGrid aheadStore "alice" "sylvester" oursCap [5] =
      .ok (aheadStore, [5], none) :=
  ⟨(c6_update_or_ignore demoGrid noPendingStore "alice" "sylvester" theirsCap
      oursCap [0] [1] rfl rfl).1 (by decide) (by decide) (by decide) rfl,
   (c6_update_or_ignore demoGrid aheadStore "alice" "sylvester" oursCap
      theirsCap [5] [1] rfl rfl).2 (by decide)⟩

end MagicFolder
